import Mathlib

/-!
Shallow embedding of `httpie/sessions.py` (persistent JSON-serialized
sessions): cookie normalization between the legacy mapping shape and the
current list shape, the insecure-legacy-layout warning, session location,
header merging, and the auth descriptor setter.
-/

namespace Httpie.Sessions

/-! ## String primitives

Structurally recursive embeddings of the Python string operations used by
the source (`str.lower`, `str.startswith`, `in`, `str.replace`,
`str.split`, `str.strip`), written over `String.data` so that they
evaluate by kernel reduction. -/

def strLower (s : String) : String :=
  ⟨s.data.map Char.toLower⟩

def strStartsWith (s pre : String) : Bool :=
  pre.data.isPrefixOf s.data

def strContainsChar (s : String) (c : Char) : Bool :=
  s.data.contains c

/-- `str.replace(a, b)` for one-character patterns. -/
def strReplaceChar (s : String) (a b : Char) : String :=
  ⟨s.data.map (fun c => if c = a then b else c)⟩

/-- `str.split(a)[0]`: the part before the first occurrence of `a`. -/
def takeUntilChar (s : String) (a : Char) : String :=
  ⟨s.data.takeWhile (fun c => !(c = a))⟩

def splitCharList (a : Char) : List Char → List (List Char)
  | [] => [[]]
  | x :: xs =>
      match splitCharList a xs with
      | [] => [[]]
      | h :: t => if x = a then [] :: h :: t else (x :: h) :: t

/-- `str.split(a)` for a one-character separator. -/
def strSplitChar (a : Char) (s : String) : List String :=
  (splitCharList a s.data).map (fun l => ⟨l⟩)

/-- `str.join` with a one-character separator. -/
def strJoinChar (a : Char) : List String → String
  | [] => ""
  | [p] => p
  | p :: ps => p ++ ⟨[a]⟩ ++ strJoinChar a ps

def strTrim (s : String) : String :=
  ⟨((s.data.dropWhile Char.isWhitespace).reverse.dropWhile
      Char.isWhitespace).reverse⟩

/-! ## Data model

A raw on-disk cookie record, as it appears in the JSON `cookies` field.
Python distinguishes an absent `domain` key (`cookie.get('domain', '')`
returns `''`) from an explicit `null` (`None`) and from a string value, so
`domain : Option (Option String)` with `none` = key absent,
`some none` = JSON null, `some (some d)` = string `d`.
`rest_explicit_none` models a `rest` key carrying
`{is_explicit_none: true}` (saved files never contain one; the decoder
adds it for the explicit-null case). -/
structure RawCookie where
  name : String
  value : String
  domain : Option (Option String) := none
  path : Option String := none
  expires : Option Nat := none
  secure : Bool := false
  rest_explicit_none : Bool := false
  deriving Repr, DecidableEq

/-- The value part of a legacy mapping-shaped entry (`name` comes from the
mapping key, `{'name': key, **value}`). -/
structure RawAttrs where
  value : String
  domain : Option (Option String) := none
  path : Option String := none
  expires : Option Nat := none
  secure : Bool := false
  rest_explicit_none : Bool := false
  deriving Repr, DecidableEq

def RawAttrs.withName (key : String) (a : RawAttrs) : RawCookie :=
  { name := key, value := a.value, domain := a.domain, path := a.path,
    expires := a.expires, secure := a.secure,
    rest_explicit_none := a.rest_explicit_none }

/-- The raw on-disk `cookies` field: absent / legacy mapping / current list
(`data.get('cookies')` with the `isinstance` dispatch). -/
inductive CookieField where
  | absent
  | mapShaped (entries : List (String × RawAttrs))
  | listShaped (entries : List RawCookie)
  deriving Repr, DecidableEq

/-- A live cookie in the `RequestsCookieJar`.  `is_explicit_none` models the
`_rest['is_explicit_none']` tag. -/
structure JarCookie where
  name : String
  value : String
  domain : String
  path : String
  expires : Option Nat := none
  secure : Bool := false
  is_explicit_none : Bool := false
  deriving Repr, DecidableEq

/-- The jar lookup key: cookies overwrite by (name, domain, path). -/
def jarKey (c : JarCookie) : String × String × String :=
  (c.name, c.domain, c.path)

/-- `RequestsCookieJar.set` semantics: stored in a nested dict keyed by
domain/path/name, so an existing cookie with the same key is overwritten in
place and a new key is appended in insertion order. -/
def jarSet (jar : List JarCookie) (c : JarCookie) : List JarCookie :=
  if jar.any (fun x => jarKey x = jarKey c) then
    jar.map (fun x => if jarKey x = jarKey c then c else x)
  else
    jar ++ [c]

/-! ## Decode (`Session.pre_process_data`, sessions.py lines 143-182) -/

/-- `{'name': key, **value}` over the mapping, or the list as-is, or `[]`. -/
def normalizeCookies : CookieField → List RawCookie
  | .absent => []
  | .mapShaped entries => entries.map (fun e => e.2.withName e.1)
  | .listShaped entries => entries

/-- `cookie.get('domain', '')`: absent key yields `''`. -/
def domainGet (c : RawCookie) : Option String :=
  match c.domain with
  | none => some ""
  | some d => d

/-- One loop iteration of `pre_process_data`: returns the cookie as it is
handed to `cookie_jar.set(**cookie)` and whether this record sets
`should_issue_warning`.  `isDict` is `isinstance(cookies, dict)`.
When the domain key is absent, `create_cookie` defaults `domain` to `''`
and `path` to `'/'`; an explicit `None` domain is rewritten to `''` with
`rest = {'is_explicit_none': True}`. -/
def processRawCookie (isDict : Bool) (c : RawCookie) : JarCookie × Bool :=
  match domainGet c with
  | some d =>
      ({ name := c.name, value := c.value, domain := d,
         path := c.path.getD "/", expires := c.expires, secure := c.secure,
         is_explicit_none := c.rest_explicit_none },
       d = "" && isDict)
  | none =>
      ({ name := c.name, value := c.value, domain := "",
         path := c.path.getD "/", expires := c.expires, secure := c.secure,
         is_explicit_none := true },
       false)

def CookieField.isDict : CookieField → Bool
  | .mapShaped _ => true
  | _ => false

/-- The loop body: `cookie_jar.set(**cookie)` plus the warning accumulator. -/
def decodeStep (isDict : Bool) (acc : List JarCookie × Bool) (c : RawCookie) :
    List JarCookie × Bool :=
  (jarSet acc.1 (processRawCookie isDict c).1,
   acc.2 || (processRawCookie isDict c).2)

/-- The cookie-decoding part of `pre_process_data`: folds every normalized
record into the jar via `set` and accumulates `should_issue_warning`. -/
def decodeCookies (field : CookieField) (jar0 : List JarCookie) :
    List JarCookie × Bool :=
  (normalizeCookies field).foldl (decodeStep field.isDict) (jar0, false)

/-! ## Warning strings (sessions.py lines 35-59) and session state -/

/-- `os.path.sep in session_name` (POSIX separator). -/
def is_anonymous_session (session_name : String) : Bool :=
  strContainsChar session_name '/'

/-- `INSECURE_COOKIE_JAR_WARNING.format(hostname=..., session_id=...)`. -/
def INSECURE_COOKIE_JAR_WARNING (hostname session_id : String) : String :=
  "Outdated layout detected for the current session. Please consider updating it,\n" ++
  "in order to not get affected by potential security problems.\n" ++
  "\n" ++
  "For fixing the current session:\n" ++
  "\n" ++
  "    With binding all cookies to the current host (secure):\n" ++
  "        $ httpie cli sessions upgrade --bind-cookies " ++
    hostname ++ " " ++ session_id ++ "\n" ++
  "\n" ++
  "    Without binding cookies (leaving them as is) (insecure):\n" ++
  "        $ httpie cli sessions upgrade " ++ hostname ++ " " ++ session_id ++ "\n"

def INSECURE_COOKIE_JAR_WARNING_FOR_NAMED_SESSIONS : String :=
  "\n" ++
  "For fixing all named sessions:\n" ++
  "\n" ++
  "    With binding all cookies to the current host (secure):\n" ++
  "        $ httpie cli sessions upgrade-all --bind-cookies\n" ++
  "\n" ++
  "    Without binding cookies (leaving them as is) (insecure):\n" ++
  "        $ httpie cli sessions upgrade-all\n" ++
  "\n" ++
  "See https://pie.co/docs/security for more information.\n"

/-- The in-memory `Session` aggregate.  `headers` models the stored
`self['headers']` mapping (case-insensitive identity, case-preserving
storage); `auth` the stored `self['auth']` dict. -/
structure Session where
  path : String
  session_id : String
  bound_host : String
  refactor_mode : Bool
  headers : List (String × String) := []
  cookie_jar : List JarCookie := []
  auth : List (String × String) := []
  deriving Repr, DecidableEq

/-- `Session.pre_process_data` (lines 143-182): decode the cookie field into
the jar, compute the optional insecure-layout warning emitted through
`env.log_error(..., level='warning')`, and return the (unmodified) data.
Result: (updated session, emitted warning if any, returned data). -/
def pre_process_data (s : Session) (field : CookieField) :
    Session × Option String × CookieField :=
  let dec := decodeCookies field s.cookie_jar
  let warn :=
    if dec.2 && !s.refactor_mode then
      some (INSECURE_COOKIE_JAR_WARNING s.bound_host s.session_id ++
        (if is_anonymous_session s.session_id then ""
         else INSECURE_COOKIE_JAR_WARNING_FOR_NAMED_SESSIONS))
    else none
  ({ s with cookie_jar := dec.1 }, warn, field)

/-! ## Session location (`get_httpie_session`, sessions.py lines 81-114) -/

/-- Python truthiness of `host or url_as_host(url)`.  `url_as_host` itself
lives in `httpie/utils.py` (outside this file); its result is taken as the
`urlHost` argument. -/
def pyOrStr (a : Option String) (b : String) : String :=
  match a with
  | some s => if s = "" then b else s
  | none => b

/-- Modelled from Python stdlib `os.path.expanduser`: a leading `~` is
replaced by the user's home directory, anything else is returned verbatim. -/
def expanduser (home p : String) : String :=
  if p = "~" then home
  else if strStartsWith p "~/" then home ++ (⟨p.data.drop 1⟩ : String)
  else p

/-- `get_httpie_session` up to the `Session(...)` construction (the
subsequent `session.load()` is modeled by `pre_process_data`). -/
def get_httpie_session (config_dir session_name : String)
    (host : Option String) (urlHost home : String)
    (refactor_mode : Bool) : Session :=
  let bound_hostname0 := pyOrStr host urlHost
  let bound_hostname := if bound_hostname0 = "" then "localhost" else bound_hostname0
  let hostname := strReplaceChar bound_hostname ':' '_'
  let pid :=
    if is_anonymous_session session_name then
      let p := expanduser home session_name
      (p, p)
    else
      (config_dir ++ "/sessions/" ++ hostname ++ "/" ++ session_name ++ ".json",
       session_name)
  { path := pid.1, session_id := pid.2,
    bound_host := takeUntilChar bound_hostname ':',
    refactor_mode := refactor_mode }

/-! ## Header merging (`Session.update_headers`, sessions.py lines 202-239)

The incoming `request_headers` is an `HTTPHeadersDict` (a multidict from
`httpie/cli/dicts.py`, outside this file), modeled from the spec as an
ordered list of (name, optional value) entries that may repeat a name;
`getall` returns the values stored under a name, removing a value from it
removes only that one instance, and `popall` removes every instance. -/

def SESSION_IGNORED_HEADER_PREFIXES : List String := ["Content-", "If-"]

def DEFAULT_COOKIE_PATH : String := "/"

/-- `headers[name] = value` on the stored header map: case-insensitive
identity, new casing wins, position kept for an existing key. -/
def hdrSet (hs : List (String × String)) (k v : String) :
    List (String × String) :=
  if hs.any (fun p => strLower p.1 = strLower k) then
    hs.map (fun p => if strLower p.1 = strLower k then (k, v) else p)
  else
    hs ++ [(k, v)]

/-- Modelled from Python stdlib `SimpleCookie(value).items()` for plain
`k=v; k2=v2` cookie strings: split on `;`, trim, split each pair at the
first `=` (pieces without `=` are dropped). -/
def parseCookiePairs (v : String) : List (String × String) :=
  (strSplitChar ';' v).filterMap (fun part =>
    match strSplitChar '=' (strTrim part) with
    | [] => none
    | [_] => none
    | k :: rest => some (k, strJoinChar '=' rest))

/-- A parsed morsel carries no path, so `morsel['path']` is set to
`DEFAULT_COOKIE_PATH` and `cookie_jar.set(cookie_name, morsel)` stores a
host-unbound cookie at that path. -/
def morselToJarCookie (p : String × String) : JarCookie :=
  { name := p.1, value := p.2, domain := "", path := DEFAULT_COOKIE_PATH }

/-- `request_headers.getall(name)` (case-insensitive key identity). -/
def getallValues (incoming : List (String × Option String)) (name : String) :
    List (Option String) :=
  (incoming.filter (fun e => strLower e.1 = strLower name)).map (·.2)

/-- `all_cookie_headers.remove(original_value)` reflected on the multidict:
drop the first instance of `name` whose value is `v`. -/
def removeFirstInstance (incoming : List (String × Option String))
    (name : String) (v : Option String) : List (String × Option String) :=
  match incoming with
  | [] => []
  | e :: rest =>
      if strLower e.1 = strLower name ∧ e.2 = v then rest
      else e :: removeFirstInstance rest name v

/-- `request_headers.popall(name)`. -/
def popallName (incoming : List (String × Option String)) (name : String) :
    List (String × Option String) :=
  incoming.filter (fun e => !(strLower e.1 = strLower name))

/-- State threaded through the `update_headers` loop: the local `headers`
copy being built, the live cookie jar, and the (mutated) incoming dict. -/
structure UpdateState where
  stored : List (String × String)
  jar : List JarCookie
  incoming : List (String × Option String)
  deriving Repr, DecidableEq

/-- One iteration of the `update_headers` loop for the snapshot entry
`(name, value)`.  Byte values are already text in this model, so the
`value.decode()` coercion is the identity. -/
def processHeader (st : UpdateState) (name : String) (value : Option String) :
    UpdateState :=
  match value with
  | none => st
  | some v =>
      if strLower name = "user-agent" && strStartsWith v "HTTPie/" then st
      else if strLower name = "cookie" then
        let jar := (parseCookiePairs v).foldl
          (fun j p => jarSet j (morselToJarCookie p)) st.jar
        let incoming :=
          if (getallValues st.incoming name).length > 1 then
            removeFirstInstance st.incoming name (some v)
          else
            popallName st.incoming name
        { st with jar := jar, incoming := incoming }
      else if SESSION_IGNORED_HEADER_PREFIXES.any
          (fun pre => strStartsWith (strLower name) (strLower pre)) then st
      else { st with stored := hdrSet st.stored name v }

/-- The `update_headers` loop over the snapshot
(`request_headers.copy().items()`). -/
def runUpdate (snapshot : List (String × Option String)) (st : UpdateState) :
    UpdateState :=
  snapshot.foldl (fun st e => processHeader st e.1 e.2) st

/-- `Session.update_headers`: iterate over a snapshot of the incoming dict
while mutating the live one, then store the merged headers back on the
session.  Also returns the final state of the incoming dict. -/
def update_headers (s : Session) (incoming : List (String × Option String)) :
    Session × List (String × Option String) :=
  let fin := runUpdate incoming
    { stored := s.headers, jar := s.cookie_jar, incoming := incoming }
  ({ s with headers := fin.stored, cookie_jar := fin.jar }, fin.incoming)

/-! ## Encode (`materialize_cookie` and `Session.post_process_data`) -/

/-- A saved cookie record: the `KEPT_COOKIE_OPTIONS` projection of a jar
cookie; `domain = none` is the JSON `null`. -/
structure MaterializedCookie where
  name : String
  value : String
  domain : Option String
  path : String
  expires : Option Nat
  secure : Bool
  deriving Repr, DecidableEq

/-- `materialize_cookie` (lines 66-78). -/
def materialize_cookie (c : JarCookie) : MaterializedCookie :=
  let base : MaterializedCookie :=
    { name := c.name, value := c.value, domain := some c.domain,
      path := c.path, expires := c.expires, secure := c.secure }
  if c.is_explicit_none && c.domain = "" then { base with domain := none }
  else base

/-- `cookie.pop('name')`: the mapping value after removing the name. -/
structure MaterializedAttrs where
  value : String
  domain : Option String
  path : String
  expires : Option Nat
  secure : Bool
  deriving Repr, DecidableEq

def MaterializedCookie.dropName (c : MaterializedCookie) : MaterializedAttrs :=
  { value := c.value, domain := c.domain, path := c.path,
    expires := c.expires, secure := c.secure }

/-- The saved `cookies` field. -/
inductive SavedCookies where
  | mapShaped (entries : List (String × MaterializedAttrs))
  | listShaped (entries : List MaterializedCookie)
  deriving Repr, DecidableEq

/-- `Session.post_process_data` (lines 184-200): re-derive the cookie field
from the live jar, in the original mapping shape when the loaded field was a
dict, as a list otherwise. -/
def post_process_data (jar : List JarCookie) (originalField : CookieField) :
    SavedCookies :=
  let normalized := jar.map materialize_cookie
  if originalField.isDict then
    .mapShaped (normalized.map (fun c => (c.name, c.dropName)))
  else
    .listShaped normalized

/-- Reading a saved list-shaped record back as a raw record: every
`KEPT_COOKIE_OPTIONS` key is present, `null` becomes an explicit null
domain, and no `rest` is saved. -/
def reloadCookie (m : MaterializedCookie) : RawCookie :=
  { name := m.name, value := m.value, domain := some m.domain,
    path := some m.path, expires := m.expires, secure := m.secure,
    rest_explicit_none := false }

/-! ## Auth descriptor setter (`Session.auth` setter, lines 292-295) -/

/-- The spec-level name for the failure of
`assert {'type', 'raw_auth'} == auth.keys()`. -/
inductive AuthError where
  | invalidAuthDescriptor
  deriving Repr, DecidableEq

/-- `{'type', 'raw_auth'} == auth.keys()` as a set comparison (a Python
dict never repeats a key). -/
def authKeysOk (keys : List String) : Bool :=
  keys.all (fun k => k = "type" || k = "raw_auth") &&
    keys.contains "type" && keys.contains "raw_auth"

/-- The auth setter: the assert either fails (no mutation happens) or the
descriptor is stored verbatim. -/
def set_auth (s : Session) (auth : List (String × String)) :
    Except AuthError Session :=
  if authKeysOk (auth.map Prod.fst) then .ok { s with auth := auth }
  else .error .invalidAuthDescriptor

/-! ## Helper lemmas -/

theorem foldl_decodeStep_snd (isDict : Bool) (cs : List RawCookie)
    (jar : List JarCookie) (b : Bool) :
    (cs.foldl (decodeStep isDict) (jar, b)).2
      = (b || cs.any fun c => (processRawCookie isDict c).2) := by
  induction cs generalizing jar b with
  | nil => simp
  | cons c cs ih => simp [decodeStep, ih, Bool.or_assoc]

theorem foldl_decodeStep_fst (isDict : Bool) (cs : List RawCookie)
    (jar : List JarCookie) (b : Bool) :
    (cs.foldl (decodeStep isDict) (jar, b)).1
      = cs.foldl (fun j c => jarSet j (processRawCookie isDict c).1) jar := by
  induction cs generalizing jar b with
  | nil => rfl
  | cons c cs ih => simp [decodeStep, ih]

theorem decodeCookies_snd (field : CookieField) (jar0 : List JarCookie) :
    (decodeCookies field jar0).2
      = (normalizeCookies field).any
          (fun c => (processRawCookie field.isDict c).2) := by
  simpa using foldl_decodeStep_snd field.isDict (normalizeCookies field) jar0 false

theorem decodeCookies_fst (field : CookieField) (jar0 : List JarCookie) :
    (decodeCookies field jar0).1
      = (normalizeCookies field).foldl
          (fun j c => jarSet j (processRawCookie field.isDict c).1) jar0 :=
  foldl_decodeStep_fst field.isDict (normalizeCookies field) jar0 false

theorem processRawCookie_flag_dict (c : RawCookie) :
    (processRawCookie true c).2 = (domainGet c == "") := by
  unfold processRawCookie
  cases h : domainGet c with
  | none => simp
  | some d => by_cases hd : d = "" <;> simp [hd]

theorem processRawCookie_flag_list (c : RawCookie) :
    (processRawCookie false c).2 = false := by
  unfold processRawCookie
  cases domainGet c <;> simp

/-- C1: decoding a mapping-shaped cookie field containing an entry whose
domain key is absent or maps to the empty string sets the insecure-legacy
flag; decoding a list-shaped field never sets the flag, and an entry with
an explicit null domain is instead rewritten to the explicit-none marker
(domain `""` tagged `is_explicit_none`) before being set into the jar. -/
theorem insecure_flag_mapping_set_list_unset
    (es : List (String × RawAttrs)) (ls : List RawCookie)
    (jar0 jar0' : List JarCookie) (e : String × RawAttrs) (he : e ∈ es)
    (hdom : e.2.domain = none ∨ e.2.domain = some (some "")) :
    (decodeCookies (.mapShaped es) jar0).2 = true ∧
    (decodeCookies (.listShaped ls) jar0').2 = false ∧
    (∀ c ∈ ls, c.domain = some none →
      processRawCookie (CookieField.listShaped ls).isDict c =
        ({ name := c.name, value := c.value, domain := "",
           path := c.path.getD "/", expires := c.expires, secure := c.secure,
           is_explicit_none := true }, false)) := by
  refine ⟨?_, ?_, ?_⟩
  · rw [decodeCookies_snd]
    simp only [CookieField.isDict, normalizeCookies]
    rw [List.any_eq_true]
    refine ⟨e.2.withName e.1, List.mem_map_of_mem _ he, ?_⟩
    rw [processRawCookie_flag_dict]
    have h : domainGet (e.2.withName e.1) = some "" := by
      rcases hdom with h | h <;> simp [domainGet, RawAttrs.withName, h]
    simp [h]
  · rw [decodeCookies_snd]
    simp [CookieField.isDict, normalizeCookies, processRawCookie_flag_list]
  · intro c _ hc
    simp [CookieField.isDict, processRawCookie, domainGet, hc]

/-- C1 witness: a concrete mapping-shaped field with the domain key absent
is flagged, a list-shaped field with an explicit null domain is not and its
entry becomes the explicit-none marker. -/
theorem insecure_flag_mapping_set_list_unset_witness :
    (decodeCookies (.mapShaped [("a", { value := "v" })]) []).2 = true ∧
    (decodeCookies
      (.listShaped [{ name := "b", value := "w", domain := some none }])
      []).2 = false ∧
    (∀ c ∈ [({ name := "b", value := "w", domain := some none } : RawCookie)],
      c.domain = some none →
      processRawCookie
        (CookieField.listShaped
          [{ name := "b", value := "w", domain := some none }]).isDict c =
        ({ name := c.name, value := c.value, domain := "",
           path := c.path.getD "/", expires := c.expires, secure := c.secure,
           is_explicit_none := true }, false)) :=
  insecure_flag_mapping_set_list_unset
    [("a", { value := "v" })]
    [{ name := "b", value := "w", domain := some none }]
    [] [] ("a", { value := "v" }) (by decide) (Or.inl rfl)

/-- C10: an explicit null domain is treated as the secure explicit-none
case even inside a mapping-shaped field: no entry of an all-null-domain
mapping sets the insecure flag, and every entry is rewritten to the
explicit-none marker before being set into the jar. -/
theorem mapping_null_domain_is_explicit_none
    (es : List (String × RawAttrs)) (jar0 : List JarCookie)
    (hnull : ∀ e ∈ es, (e.2).domain = some none) :
    (decodeCookies (.mapShaped es) jar0).2 = false ∧
    (∀ e ∈ es,
      processRawCookie (CookieField.mapShaped es).isDict (e.2.withName e.1) =
        ({ name := e.1, value := e.2.value, domain := "",
           path := e.2.path.getD "/", expires := e.2.expires,
           secure := e.2.secure, is_explicit_none := true }, false)) := by
  constructor
  · rw [decodeCookies_snd]
    simp only [CookieField.isDict, normalizeCookies]
    rw [List.any_eq_false]
    intro x hx
    obtain ⟨e, he, rfl⟩ := List.mem_map.1 hx
    rw [processRawCookie_flag_dict]
    simp [domainGet, RawAttrs.withName, hnull e he]
  · intro e he
    simp [CookieField.isDict, processRawCookie, domainGet, RawAttrs.withName,
      hnull e he]

/-- C10 witness: a mapping entry `name -> {value, domain: null}` does not
set the flag and decodes to the explicit-none marker. -/
theorem mapping_null_domain_is_explicit_none_witness :
    (decodeCookies (.mapShaped [("a", { value := "v", domain := some none })])
      []).2 = false ∧
    (∀ e ∈ [(("a", { value := "v", domain := some none }) :
        String × RawAttrs)],
      processRawCookie
        (CookieField.mapShaped
          [("a", { value := "v", domain := some none })]).isDict
        (e.2.withName e.1) =
        ({ name := e.1, value := e.2.value, domain := "",
           path := e.2.path.getD "/", expires := e.2.expires,
           secure := e.2.secure, is_explicit_none := true }, false)) :=
  mapping_null_domain_is_explicit_none
    [("a", { value := "v", domain := some none })] []
    (by intro e he; simp at he; simp [he])

theorem warning_contains_host_and_id (hostname session_id : String) :
    ∃ a b, INSECURE_COOKIE_JAR_WARNING hostname session_id
      = a ++ hostname ++ " " ++ session_id ++ b :=
  ⟨"Outdated layout detected for the current session. Please consider updating it,\n" ++
      "in order to not get affected by potential security problems.\n" ++
      "\n" ++
      "For fixing the current session:\n" ++
      "\n" ++
      "    With binding all cookies to the current host (secure):\n" ++
      "        $ httpie cli sessions upgrade --bind-cookies ",
    "\n" ++
      "\n" ++
      "    Without binding cookies (leaving them as is) (insecure):\n" ++
      "        $ httpie cli sessions upgrade " ++ hostname ++ " " ++
      session_id ++ "\n",
    by simp [INSECURE_COOKIE_JAR_WARNING, String.append_assoc]⟩

/-- C2: the security warning is emitted iff the insecure-legacy flag was
detected and `refactor_mode` is false; the emitted text names the bound
host and the session id and, for a named session, additionally carries the
upgrade-all-named-sessions remediation text; and emission never prevents
the load: the jar update and the returned data do not depend on it. -/
theorem load_warning_advisory (s : Session) (field : CookieField) :
    ((pre_process_data s field).2.1.isSome = true
        ↔ ((decodeCookies field s.cookie_jar).2 = true
            ∧ s.refactor_mode = false)) ∧
    (∀ w, (pre_process_data s field).2.1 = some w →
      (∃ a b, w = a ++ s.bound_host ++ " " ++ s.session_id ++ b) ∧
      (is_anonymous_session s.session_id = false →
        ∃ a, w = a ++ INSECURE_COOKIE_JAR_WARNING_FOR_NAMED_SESSIONS)) ∧
    (pre_process_data s field).1
        = { s with cookie_jar := (decodeCookies field s.cookie_jar).1 } ∧
    (pre_process_data s field).2.2 = field := by
  obtain ⟨a, b, hab⟩ :=
    warning_contains_host_and_id s.bound_host s.session_id
  refine ⟨?_, ?_, rfl, rfl⟩
  · simp only [pre_process_data]
    cases hf : (decodeCookies field s.cookie_jar).2 <;>
      cases hr : s.refactor_mode <;> simp [hf, hr]
  · intro w hw
    simp only [pre_process_data] at hw
    cases hc : ((decodeCookies field s.cookie_jar).2 && !s.refactor_mode) with
    | false => rw [hc] at hw; simp at hw
    | true =>
        rw [hc] at hw
        simp only [if_true, Option.some_inj] at hw
        subst hw
        cases ha : is_anonymous_session s.session_id with
        | true =>
            refine ⟨⟨a, b, ?_⟩, by simp [ha]⟩
            simp [ha, hab, String.append_assoc]
        | false =>
            refine ⟨⟨a, b ++ INSECURE_COOKIE_JAR_WARNING_FOR_NAMED_SESSIONS,
              ?_⟩,
              fun _ => ⟨INSECURE_COOKIE_JAR_WARNING s.bound_host s.session_id,
                by simp [ha]⟩⟩
            simp [ha, hab, String.append_assoc]

/-- C2 witness: a session with the flag raised and `refactor_mode` off. -/
theorem load_warning_advisory_witness :
    let s : Session :=
      { path := "/cfg/sessions/h/work.json", session_id := "work",
        bound_host := "h.example", refactor_mode := false }
    let field : CookieField := .mapShaped [("a", { value := "v" })]
    ((pre_process_data s field).2.1.isSome = true
        ↔ ((decodeCookies field s.cookie_jar).2 = true
            ∧ s.refactor_mode = false)) ∧
    (∀ w, (pre_process_data s field).2.1 = some w →
      (∃ a b, w = a ++ s.bound_host ++ " " ++ s.session_id ++ b) ∧
      (is_anonymous_session s.session_id = false →
        ∃ a, w = a ++ INSECURE_COOKIE_JAR_WARNING_FOR_NAMED_SESSIONS)) ∧
    (pre_process_data s field).1
        = { s with cookie_jar := (decodeCookies field s.cookie_jar).1 } ∧
    (pre_process_data s field).2.2 = field :=
  load_warning_advisory
    { path := "/cfg/sessions/h/work.json", session_id := "work",
      bound_host := "h.example", refactor_mode := false }
    (.mapShaped [("a", { value := "v" })])

/-- C3 counterexample: for host `api.example.com:443` the whole
`host:port` string, colon replaced by underscore, names the per-host
directory, so the file lands under `sessions/api.example.com_443/`, not
under `sessions/api.example.com/`. -/
theorem named_session_path_counterexample :
    (get_httpie_session "/root/.config/httpie" "work"
        (some "api.example.com:443") "" "/home/user" false).path
      = "/root/.config/httpie/sessions/api.example.com_443/work.json" ∧
    (get_httpie_session "/root/.config/httpie" "work"
        (some "api.example.com:443") "" "/home/user" false).path
      ≠ "/root/.config/httpie/sessions/api.example.com/work.json" := by
  refine ⟨rfl, ?_⟩
  decide

/-- C3 amended: for name `work` and host `api.example.com:443` the session
file resolves under `<config-root>/sessions/api.example.com_443/work.json`
(the `host:port` pair with the colon replaced by an underscore) and the
display id is `work`; for a name containing a path separator the
user-home-expanded name is used verbatim as both file path and display
id. -/
theorem session_locator_amended (config_dir home urlHost : String)
    (host : Option String) (rm : Bool) :
    ((get_httpie_session config_dir "work" (some "api.example.com:443")
        urlHost home rm).path
      = config_dir ++ "/sessions/api.example.com_443/work.json" ∧
     (get_httpie_session config_dir "work" (some "api.example.com:443")
        urlHost home rm).session_id = "work") ∧
    ((get_httpie_session config_dir "/tmp/x.json" host urlHost home
        rm).path = "/tmp/x.json" ∧
     (get_httpie_session config_dir "/tmp/x.json" host urlHost home
        rm).session_id = "/tmp/x.json") := by
  refine ⟨⟨?_, rfl⟩, ⟨rfl, rfl⟩⟩
  show config_dir ++ "/sessions/" ++ "api.example.com_443" ++ "/" ++
      "work" ++ ".json"
    = config_dir ++ "/sessions/api.example.com_443/work.json"
  rw [String.append_assoc, String.append_assoc, String.append_assoc,
    String.append_assoc]
  rfl

/-- C7 counterexample: `bound_host` keeps the casing of the host argument,
it is not lowercased. -/
theorem bound_host_not_lowercased :
    (get_httpie_session "/cfg" "work" (some "API.Example.COM:443") ""
        "/home" false).bound_host = "API.Example.COM" ∧
    (get_httpie_session "/cfg" "work" (some "API.Example.COM:443") ""
        "/home" false).bound_host ≠ "api.example.com" := by
  refine ⟨rfl, ?_⟩
  decide

/-- C7 amended: `bound_host` is the hostname with the port stripped (the
part before the first colon), case preserved; it is derived from the
explicit host argument when truthy, otherwise from the hostname of the
request URL, and is `localhost` when neither yields a value; it is
computed once at construction and not changed by load or merge (save does
not touch the session fields at all). -/
theorem bound_host_amended (config_dir session_name home urlHost : String)
    (host : Option String) (rm : Bool) (field : CookieField)
    (incoming : List (String × Option String)) :
    let s := get_httpie_session config_dir session_name host urlHost home rm
    (∀ h, host = some h → h ≠ "" →
      s.bound_host = takeUntilChar h ':') ∧
    ((host = none ∨ host = some "") → urlHost ≠ "" →
      s.bound_host = takeUntilChar urlHost ':') ∧
    ((host = none ∨ host = some "") → urlHost = "" →
      s.bound_host = "localhost") ∧
    (pre_process_data s field).1.bound_host = s.bound_host ∧
    (update_headers s incoming).1.bound_host = s.bound_host := by
  refine ⟨?_, ?_, ?_, rfl, rfl⟩
  · rintro h rfl hne
    have hb : pyOrStr (some h) urlHost = h := by simp [pyOrStr, hne]
    simp only [get_httpie_session, hb, if_neg hne]
  · rintro (rfl | rfl) hu <;>
      simp [get_httpie_session, pyOrStr, if_neg hu]
  · rintro (rfl | rfl) rfl <;> rfl

/-- C7 amended witness: explicit mixed-case host with a port. -/
theorem bound_host_amended_witness :
    let s := get_httpie_session "/cfg" "work" (some "API.Example.COM:443")
      "" "/home" false
    (∀ h, some "API.Example.COM:443" = some h → h ≠ "" →
      s.bound_host = takeUntilChar h ':') ∧
    ((some "API.Example.COM:443" = none
        ∨ some "API.Example.COM:443" = some "") → "" ≠ "" →
      s.bound_host = takeUntilChar "" ':') ∧
    ((some "API.Example.COM:443" = none
        ∨ some "API.Example.COM:443" = some "") → "" = "" →
      s.bound_host = "localhost") ∧
    (pre_process_data s CookieField.absent).1.bound_host = s.bound_host ∧
    (update_headers s []).1.bound_host = s.bound_host :=
  bound_host_amended "/cfg" "work" "/home" "" (some "API.Example.COM:443")
    false CookieField.absent []

theorem authKeysOk_iff (ks : List String) :
    authKeysOk ks = true
      ↔ ∀ k, k ∈ ks ↔ (k = "type" ∨ k = "raw_auth") := by
  simp only [authKeysOk, Bool.and_eq_true, List.all_eq_true,
    Bool.or_eq_true, decide_eq_true_eq, List.contains_eq_any_beq,
    List.any_beq, List.elem_iff]
  constructor
  · rintro ⟨⟨hall, ht⟩, hr⟩ k
    refine ⟨fun hk => hall k hk, ?_⟩
    rintro (rfl | rfl)
    · simpa using ht
    · simpa using hr
  · intro h
    refine ⟨⟨fun k hk => (h k).1 hk, ?_⟩, ?_⟩
    · simpa using (h "type").2 (Or.inl rfl)
    · simpa using (h "raw_auth").2 (Or.inr rfl)

/-- C8: setting the auth descriptor stores it verbatim exactly when the
supplied dictionary's key set is `{type, raw_auth}`; any other key set
(missing `raw_auth`, extra keys, the legacy username/password shape) fails
with `InvalidAuthDescriptor` and produces no new session state. -/
theorem auth_setter_requires_exact_keys (s : Session)
    (auth : List (String × String)) :
    (set_auth s auth = .ok { s with auth := auth }
      ↔ ∀ k, k ∈ auth.map Prod.fst ↔ (k = "type" ∨ k = "raw_auth")) ∧
    (set_auth s auth = .error .invalidAuthDescriptor
      ↔ ¬ ∀ k, k ∈ auth.map Prod.fst ↔ (k = "type" ∨ k = "raw_auth")) ∧
    set_auth s [("type", "basic")] = .error .invalidAuthDescriptor ∧
    set_auth s [("type", "basic"), ("raw_auth", "u:p"), ("extra", "x")]
      = .error .invalidAuthDescriptor ∧
    set_auth s [("type", "basic"), ("username", "u"), ("password", "p")]
      = .error .invalidAuthDescriptor := by
  refine ⟨?_, ?_, by simp [set_auth, authKeysOk], by simp [set_auth, authKeysOk],
    by simp [set_auth, authKeysOk]⟩
  · rw [← authKeysOk_iff]
    unfold set_auth
    cases h : authKeysOk (auth.map Prod.fst) <;> simp [h]
  · rw [← authKeysOk_iff]
    unfold set_auth
    cases h : authKeysOk (auth.map Prod.fst) <;> simp [h]

/-- C8 witness: a concrete session and a well-shaped descriptor. -/
theorem auth_setter_requires_exact_keys_witness :
    let s : Session :=
      { path := "/p", session_id := "work", bound_host := "h",
        refactor_mode := false }
    let auth := [("type", "basic"), ("raw_auth", "user:pass")]
    (set_auth s auth = .ok { s with auth := auth }
      ↔ ∀ k, k ∈ auth.map Prod.fst ↔ (k = "type" ∨ k = "raw_auth")) ∧
    (set_auth s auth = .error .invalidAuthDescriptor
      ↔ ¬ ∀ k, k ∈ auth.map Prod.fst ↔ (k = "type" ∨ k = "raw_auth")) ∧
    set_auth s [("type", "basic")] = .error .invalidAuthDescriptor ∧
    set_auth s [("type", "basic"), ("raw_auth", "u:p"), ("extra", "x")]
      = .error .invalidAuthDescriptor ∧
    set_auth s [("type", "basic"), ("username", "u"), ("password", "p")]
      = .error .invalidAuthDescriptor :=
  auth_setter_requires_exact_keys
    { path := "/p", session_id := "work", bound_host := "h",
      refactor_mode := false }
    [("type", "basic"), ("raw_auth", "user:pass")]

/-- C5: the persisted cookie field is always recomputed from the live jar —
it depends on the originally-loaded field only through its shape tag — and
a mapping-shaped original is saved again as a mapping keyed by cookie name
with the remaining attributes as value, while any other original shape is
saved as a list of materialized records. -/
theorem save_recomputes_from_live_jar (jar : List JarCookie)
    (f f' : CookieField) :
    (f.isDict = f'.isDict →
      post_process_data jar f = post_process_data jar f') ∧
    (f.isDict = true →
      post_process_data jar f
        = .mapShaped ((jar.map materialize_cookie).map
            (fun c => (c.name, c.dropName)))) ∧
    (f.isDict = false →
      post_process_data jar f = .listShaped (jar.map materialize_cookie)) := by
  refine ⟨?_, ?_, ?_⟩ <;> intro h
  · cases hd : f'.isDict <;>
      simp [post_process_data, h, hd]
  · simp [post_process_data, h]
  · simp [post_process_data, h]

/-- C5 witness: the same jar saved against two different mapping-shaped
originals (including a stale raw form) gives the same mapping; against a
list-shaped original it gives the list of materialized records. -/
theorem save_recomputes_from_live_jar_witness :
    let jar : List JarCookie :=
      [{ name := "a", value := "1", domain := "h.example", path := "/" },
       { name := "b", value := "2", domain := "",
         path := "/", is_explicit_none := true }]
    let f : CookieField := .mapShaped [("stale", { value := "old" })]
    let f' : CookieField := .mapShaped []
    (f.isDict = f'.isDict →
      post_process_data jar f = post_process_data jar f') ∧
    (f.isDict = true →
      post_process_data jar f
        = .mapShaped ((jar.map materialize_cookie).map
            (fun c => (c.name, c.dropName)))) ∧
    (f.isDict = false →
      post_process_data jar f = .listShaped (jar.map materialize_cookie)) :=
  save_recomputes_from_live_jar _ _ _

theorem filter_map_replace (hs : List (String × String)) (k v : String)
    (p : String × String → Bool) (hk : ∀ w, p (k, w) = false)
    (hstable : ∀ e : String × String, strLower e.1 = strLower k →
      ∀ w, p e = p (k, w)) :
    (hs.map (fun e => if strLower e.1 = strLower k then (k, v) else e)).filter p
      = hs.filter p := by
  induction hs with
  | nil => rfl
  | cons e es ih =>
      by_cases he : strLower e.1 = strLower k
      · have hpe : p e = false := by rw [hstable e he v, hk]
        simp [he, hk, hpe, ih]
      · cases hpe : p e <;> simp [List.filter_cons, he, hpe, ih]

theorem hdrSet_filter (hs : List (String × String)) (k v : String)
    (p : String × String → Bool) (hk : ∀ w, p (k, w) = false)
    (hstable : ∀ e : String × String, strLower e.1 = strLower k →
      ∀ w, p e = p (k, w)) :
    (hdrSet hs k v).filter p = hs.filter p := by
  unfold hdrSet
  split
  · exact filter_map_replace hs k v p hk hstable
  · simp [List.filter_append, hk]

theorem runUpdate_stored_filter (p : String × String → Bool)
    (l : List (String × Option String)) (st : UpdateState)
    (hstep : ∀ st' : UpdateState, ∀ e ∈ l,
      ((processHeader st' e.1 e.2).stored).filter p = st'.stored.filter p) :
    ((runUpdate l st).stored).filter p = st.stored.filter p := by
  induction l generalizing st with
  | nil => rfl
  | cons e es ih =>
      have h1 := hstep st e (List.mem_cons_self e es)
      have h2 := ih (processHeader st e.1 e.2)
        (fun st' e' he' => hstep st' e' (List.mem_cons_of_mem _ he'))
      calc ((runUpdate (e :: es) st).stored).filter p
          = ((runUpdate es (processHeader st e.1 e.2)).stored).filter p := rfl
        _ = ((processHeader st e.1 e.2).stored).filter p := h2
        _ = st.stored.filter p := h1

theorem jarSet_mem_self (j : List JarCookie) (c : JarCookie) :
    c ∈ jarSet j c := by
  unfold jarSet
  split
  case isTrue h =>
      obtain ⟨x, hx, hkey⟩ := List.any_eq_true.1 h
      simp only [decide_eq_true_eq] at hkey
      exact List.mem_map.2 ⟨x, hx, by simp [hkey]⟩
  case isFalse h => simp

theorem jarSet_preserves_key (j : List JarCookie) (c : JarCookie)
    (k : String × String × String) (h : ∃ x ∈ j, jarKey x = k) :
    ∃ x ∈ jarSet j c, jarKey x = k := by
  obtain ⟨x, hx, hk⟩ := h
  unfold jarSet
  split
  case isTrue _ =>
      by_cases hxc : jarKey x = jarKey c
      · exact ⟨c, List.mem_map.2 ⟨x, hx, by simp [hxc]⟩, by rw [← hxc, hk]⟩
      · exact ⟨x, List.mem_map.2 ⟨x, hx, by simp [hxc]⟩, hk⟩
  case isFalse _ => exact ⟨x, List.mem_append_left _ hx, hk⟩

theorem cookieFold_preserves_key (qs : List (String × String))
    (j : List JarCookie) (k : String × String × String)
    (h : ∃ x ∈ j, jarKey x = k) :
    ∃ x ∈ qs.foldl (fun j p => jarSet j (morselToJarCookie p)) j,
      jarKey x = k := by
  induction qs generalizing j with
  | nil => exact h
  | cons q qs ih =>
      exact ih _ (jarSet_preserves_key j (morselToJarCookie q) k h)

theorem cookieFold_mem (pairs : List (String × String))
    (j : List JarCookie) :
    ∀ p ∈ pairs,
      ∃ x ∈ pairs.foldl (fun j p => jarSet j (morselToJarCookie p)) j,
        jarKey x = (p.1, "", DEFAULT_COOKIE_PATH) := by
  induction pairs generalizing j with
  | nil => intro p hp; cases hp
  | cons q qs ih =>
      intro p hp
      rcases List.mem_cons.1 hp with rfl | hp'
      · exact cookieFold_preserves_key qs _ _
          ⟨morselToJarCookie p, jarSet_mem_self j _, rfl⟩
      · exact ih _ p hp'

theorem removeFirstInstance_decomp
    (incoming : List (String × Option String)) (n : String)
    (v : Option String)
    (h : ∃ e ∈ incoming, strLower e.1 = strLower n ∧ e.2 = v) :
    ∃ l1 e l2, incoming = l1 ++ e :: l2 ∧
      removeFirstInstance incoming n v = l1 ++ l2 ∧
      strLower e.1 = strLower n ∧ e.2 = v ∧
      ∀ x ∈ l1, ¬(strLower x.1 = strLower n ∧ x.2 = v) := by
  induction incoming with
  | nil => simp at h
  | cons a as ih =>
      by_cases ha : strLower a.1 = strLower n ∧ a.2 = v
      · refine ⟨[], a, as, rfl, ?_, ha.1, ha.2, by simp⟩
        simp [removeFirstInstance, ha]
      · obtain ⟨e, he, hprop⟩ := h
        rcases List.mem_cons.1 he with rfl | he'
        · exact absurd hprop ha
        · obtain ⟨l1, e', l2, heq, hrem, h1, h2, h3⟩ := ih ⟨e, he', hprop⟩
          refine ⟨a :: l1, e', l2, by rw [heq]; rfl, ?_, h1, h2, ?_⟩
          · simp only [removeFirstInstance]
            rw [if_neg ha, hrem]
            rfl
          · intro x hx
            rcases List.mem_cons.1 hx with rfl | hx'
            · exact ha
            · exact h3 x hx'

theorem popallName_no_match (incoming : List (String × Option String))
    (n : String) :
    ∀ e ∈ popallName incoming n, ¬ strLower e.1 = strLower n := by
  intro e he
  have := List.mem_filter.1 he
  simpa using this.2

theorem processHeader_filter_cookie (st : UpdateState) (n : String)
    (v : Option String) :
    ((processHeader st n v).stored).filter (fun e => strLower e.1 == "cookie")
      = st.stored.filter (fun e => strLower e.1 == "cookie") := by
  cases v with
  | none => rfl
  | some x =>
      simp only [processHeader]
      split_ifs with h1 h2 h3 h4
      · rfl
      · rfl
      · rfl
      · rfl
      · refine hdrSet_filter _ _ _ _ (fun w => by simp [h2]) ?_
        intro e he w
        simp [he]

theorem processHeader_filter_prefixes (st : UpdateState) (n : String)
    (v : Option String) :
    ((processHeader st n v).stored).filter
        (fun e => strStartsWith (strLower e.1) "content-"
          || strStartsWith (strLower e.1) "if-")
      = st.stored.filter
        (fun e => strStartsWith (strLower e.1) "content-"
          || strStartsWith (strLower e.1) "if-") := by
  cases v with
  | none => rfl
  | some x =>
      simp only [processHeader]
      split_ifs with h1 h2 h3 h4
      · rfl
      · rfl
      · rfl
      · rfl
      · refine hdrSet_filter _ _ _ _ (fun w => ?_) ?_
        · simp only [SESSION_IGNORED_HEADER_PREFIXES, List.any_cons,
            List.any_nil, Bool.or_eq_true, Bool.or_false] at h4
          have hc : strStartsWith (strLower n) "content-" = false := by
            have hl : strLower "Content-" = "content-" := rfl
            rw [← hl]
            exact Bool.eq_false_iff.2 (fun hx => h4 (Or.inl hx))
          have hi : strStartsWith (strLower n) "if-" = false := by
            have hl : strLower "If-" = "if-" := rfl
            rw [← hl]
            exact Bool.eq_false_iff.2 (fun hx => h4 (Or.inr hx))
          simp [hc, hi]
        · intro e he w
          simp [he]

theorem processHeader_filter_ua (st : UpdateState) (n : String)
    (v : Option String)
    (hv : ∀ x, v = some x → strLower n = "user-agent" →
      strStartsWith x "HTTPie/" = true) :
    ((processHeader st n v).stored).filter
        (fun e => strLower e.1 == "user-agent")
      = st.stored.filter (fun e => strLower e.1 == "user-agent") := by
  cases v with
  | none => rfl
  | some x =>
      simp only [processHeader]
      split_ifs with h1 h2 h3 h4
      · rfl
      · rfl
      · rfl
      · rfl
      · refine hdrSet_filter _ _ _ _ (fun w => ?_) ?_
        · by_cases hn : strLower n = "user-agent"
          · exact absurd (by simp [hn, hv x rfl hn]) h1
          · simp [hn]
        · intro e he w
          simp [he]

/-- The shape of the `Cookie`-header branch of the loop. -/
theorem processHeader_cookie_branch (st : UpdateState) (name v : String)
    (hname : strLower name = "cookie") :
    processHeader st name (some v) =
      { st with
        jar := (parseCookiePairs v).foldl
          (fun j p => jarSet j (morselToJarCookie p)) st.jar,
        incoming :=
          if (getallValues st.incoming name).length > 1 then
            removeFirstInstance st.incoming name (some v)
          else popallName st.incoming name } := by
  simp [processHeader, hname]

/-- C4: a `Cookie` header (case-insensitive) is never stored into the
session's header map; each cookie pair of its value is folded into the
jar under the default path `/`; the consumed header instance is removed
from the incoming dict, and when several instances exist only the consumed
one is removed while the others remain. -/
theorem cookie_header_never_stored (st : UpdateState) (name v : String)
    (s : Session) (incoming : List (String × Option String))
    (hname : strLower name = "cookie")
    (hclean : ∀ e ∈ s.headers, ¬ strLower e.1 = "cookie") :
    (∀ e ∈ (update_headers s incoming).1.headers,
      ¬ strLower e.1 = "cookie") ∧
    (processHeader st name (some v)).stored = st.stored ∧
    (∀ p ∈ parseCookiePairs v,
      ∃ jc ∈ (processHeader st name (some v)).jar,
        jarKey jc = (p.1, "", DEFAULT_COOKIE_PATH)) ∧
    ((getallValues st.incoming name).length > 1 →
      (∃ e ∈ st.incoming, strLower e.1 = strLower name ∧ e.2 = some v) →
      ∃ l1 e l2, st.incoming = l1 ++ e :: l2 ∧
        (processHeader st name (some v)).incoming = l1 ++ l2 ∧
        strLower e.1 = strLower name ∧ e.2 = some v ∧
        ∀ x ∈ l1, ¬(strLower x.1 = strLower name ∧ x.2 = some v)) ∧
    (¬ (getallValues st.incoming name).length > 1 →
      ∀ e ∈ (processHeader st name (some v)).incoming,
        ¬ strLower e.1 = strLower name) := by
  refine ⟨?_, ?_, ?_, ?_, ?_⟩
  · intro e he hcl
    have hfilter := runUpdate_stored_filter
      (fun e => strLower e.1 == "cookie") incoming
      { stored := s.headers, jar := s.cookie_jar, incoming := incoming }
      (fun st' e' _ => processHeader_filter_cookie st' e'.1 e'.2)
    have hin : e ∈ ((update_headers s incoming).1.headers).filter
        (fun e => strLower e.1 == "cookie") :=
      List.mem_filter.2 ⟨he, by simp [hcl]⟩
    rw [show (update_headers s incoming).1.headers
        = (runUpdate incoming
            { stored := s.headers, jar := s.cookie_jar,
              incoming := incoming }).stored from rfl, hfilter] at hin
    have := List.mem_filter.1 hin
    exact hclean e this.1 (by simpa using this.2)
  · rw [processHeader_cookie_branch st name v hname]
  · rw [processHeader_cookie_branch st name v hname]
    exact cookieFold_mem (parseCookiePairs v) st.jar
  · intro hlen hex
    rw [processHeader_cookie_branch st name v hname]
    simp only [if_pos hlen]
    exact removeFirstInstance_decomp st.incoming name (some v) hex
  · intro hlen
    rw [processHeader_cookie_branch st name v hname]
    simp only [if_neg hlen]
    exact popallName_no_match st.incoming name

/-- C4 witness: merging `Cookie: a=1; b=2` with a second `Cookie` instance
present. -/
theorem cookie_header_never_stored_witness :
    let st : UpdateState :=
      { stored := [("Accept", "application/json")], jar := [],
        incoming := [("Cookie", some "a=1; b=2"), ("Cookie", some "c=3")] }
    let s : Session :=
      { path := "/p", session_id := "work", bound_host := "h",
        refactor_mode := false, headers := [("Accept", "application/json")] }
    let incoming := [("Cookie", some "a=1; b=2"), ("Cookie", some "c=3")]
    (∀ e ∈ (update_headers s incoming).1.headers,
      ¬ strLower e.1 = "cookie") ∧
    (processHeader st "Cookie" (some "a=1; b=2")).stored = st.stored ∧
    (∀ p ∈ parseCookiePairs "a=1; b=2",
      ∃ jc ∈ (processHeader st "Cookie" (some "a=1; b=2")).jar,
        jarKey jc = (p.1, "", DEFAULT_COOKIE_PATH)) ∧
    ((getallValues st.incoming "Cookie").length > 1 →
      (∃ e ∈ st.incoming,
        strLower e.1 = strLower "Cookie" ∧ e.2 = some "a=1; b=2") →
      ∃ l1 e l2, st.incoming = l1 ++ e :: l2 ∧
        (processHeader st "Cookie" (some "a=1; b=2")).incoming = l1 ++ l2 ∧
        strLower e.1 = strLower "Cookie" ∧ e.2 = some "a=1; b=2" ∧
        ∀ x ∈ l1,
          ¬(strLower x.1 = strLower "Cookie" ∧ x.2 = some "a=1; b=2")) ∧
    (¬ (getallValues st.incoming "Cookie").length > 1 →
      ∀ e ∈ (processHeader st "Cookie" (some "a=1; b=2")).incoming,
        ¬ strLower e.1 = strLower "Cookie") :=
  cookie_header_never_stored
    { stored := [("Accept", "application/json")], jar := [],
      incoming := [("Cookie", some "a=1; b=2"), ("Cookie", some "c=3")] }
    "Cookie" "a=1; b=2"
    { path := "/p", session_id := "work", bound_host := "h",
      refactor_mode := false, headers := [("Accept", "application/json")] }
    [("Cookie", some "a=1; b=2"), ("Cookie", some "c=3")]
    rfl (by decide)

/-- C9: for every incoming header map, no header whose lowered name starts
with `content-` or `if-` is ever stored (the stored entries with such
names are exactly the initial ones, unconditionally), and when every
incoming `User-Agent` value carries the tool's own `HTTPie/` agent-string
prefix, the stored `User-Agent` entries are left untouched. -/
theorem ignored_prefixes_and_default_ua (s : Session)
    (incoming : List (String × Option String)) :
    ((update_headers s incoming).1.headers.filter
        (fun e => strStartsWith (strLower e.1) "content-"
          || strStartsWith (strLower e.1) "if-")
      = s.headers.filter
        (fun e => strStartsWith (strLower e.1) "content-"
          || strStartsWith (strLower e.1) "if-")) ∧
    ((∀ e ∈ incoming, ∀ x, e.2 = some x →
        strLower e.1 = "user-agent" → strStartsWith x "HTTPie/" = true) →
      (update_headers s incoming).1.headers.filter
          (fun e => strLower e.1 == "user-agent")
        = s.headers.filter (fun e => strLower e.1 == "user-agent")) := by
  constructor
  · exact runUpdate_stored_filter _ incoming
      { stored := s.headers, jar := s.cookie_jar, incoming := incoming }
      (fun st' e' _ => processHeader_filter_prefixes st' e'.1 e'.2)
  · intro hua
    exact runUpdate_stored_filter _ incoming
      { stored := s.headers, jar := s.cookie_jar, incoming := incoming }
      (fun st' e' he' =>
        processHeader_filter_ua st' e'.1 e'.2
          (fun x hx hn => hua e' he' x hx hn))

/-- C9 witness: `Content-Type` and `If-None-Match` are dropped and a
custom stored `User-Agent` survives the tool's default agent string. -/
theorem ignored_prefixes_and_default_ua_witness :
    let s : Session :=
      { path := "/p", session_id := "work", bound_host := "h",
        refactor_mode := false,
        headers := [("User-Agent", "MyClient/1.0")] }
    let incoming : List (String × Option String) :=
      [("Content-Type", some "text/plain"), ("If-None-Match", some "x"),
       ("User-Agent", some "HTTPie/3.2.2"), ("Accept", some "json")]
    ((update_headers s incoming).1.headers.filter
        (fun e => strStartsWith (strLower e.1) "content-"
          || strStartsWith (strLower e.1) "if-")
      = s.headers.filter
        (fun e => strStartsWith (strLower e.1) "content-"
          || strStartsWith (strLower e.1) "if-")) ∧
    (update_headers s incoming).1.headers.filter
        (fun e => strLower e.1 == "user-agent")
      = s.headers.filter (fun e => strLower e.1 == "user-agent") :=
  let s : Session :=
    { path := "/p", session_id := "work", bound_host := "h",
      refactor_mode := false,
      headers := [("User-Agent", "MyClient/1.0")] }
  let incoming : List (String × Option String) :=
    [("Content-Type", some "text/plain"), ("If-None-Match", some "x"),
     ("User-Agent", some "HTTPie/3.2.2"), ("Accept", some "json")]
  ⟨(ignored_prefixes_and_default_ua s incoming).1,
   (ignored_prefixes_and_default_ua s incoming).2 (by decide)⟩

theorem roundtrip_cookie (c : JarCookie)
    (hwf : c.is_explicit_none = true → c.domain = "") :
    processRawCookie false (reloadCookie (materialize_cookie c))
      = (c, false) := by
  obtain ⟨n, vl, dm, pt, ex, sc, ie⟩ := c
  cases ie with
  | true =>
      have hdm : dm = "" := hwf rfl
      subst hdm
      simp [materialize_cookie, reloadCookie, processRawCookie, domainGet]
  | false =>
      by_cases hdm : dm = ""
      · subst hdm
        simp [materialize_cookie, reloadCookie, processRawCookie, domainGet]
      · simp [materialize_cookie, reloadCookie, processRawCookie, domainGet,
          hdm]

theorem jarSet_of_fresh (j : List JarCookie) (c : JarCookie)
    (h : ∀ x ∈ j, jarKey x ≠ jarKey c) : jarSet j c = j ++ [c] := by
  unfold jarSet
  rw [if_neg]
  intro hany
  obtain ⟨x, hx, hk⟩ := List.any_eq_true.1 hany
  exact h x hx (by simpa using hk)

theorem foldl_jarSet_fresh (cs : List JarCookie) (acc : List JarCookie)
    (hdisj : ∀ c ∈ cs, ∀ a ∈ acc, jarKey a ≠ jarKey c)
    (hnodup : (cs.map jarKey).Nodup) :
    cs.foldl jarSet acc = acc ++ cs := by
  induction cs generalizing acc with
  | nil => simp
  | cons c cs ih =>
      have hn := hnodup
      rw [List.map_cons, List.nodup_cons] at hn
      rw [List.foldl_cons,
        jarSet_of_fresh acc c
          (fun a ha => hdisj c (List.mem_cons_self c cs) a ha)]
      rw [ih (acc ++ [c]) ?_ hn.2]
      · simp
      · intro c' hc' a ha
        rcases List.mem_append.1 ha with ha' | ha'
        · exact hdisj c' (List.mem_cons_of_mem _ hc') a ha'
        · have hac : a = c := by simpa using ha'
          subst hac
          intro hk
          exact hn.1 (hk ▸ List.mem_map_of_mem jarKey hc')

/-- C6: materializing a well-formed jar (distinct (name, domain, path)
keys; the explicit-none tag only on empty domains) into the current list
shape and decoding it back reproduces the jar exactly — in particular the
explicit-none marker is saved as a null domain and decodes back to the
same marker — with no insecure-legacy flag raised. -/
theorem list_shape_roundtrip (jar : List JarCookie)
    (hwf : ∀ c ∈ jar, c.is_explicit_none = true → c.domain = "")
    (hnodup : (jar.map jarKey).Nodup) :
    decodeCookies
        (.listShaped ((jar.map materialize_cookie).map reloadCookie)) []
      = (jar, false) ∧
    (∀ c ∈ jar, c.is_explicit_none = true →
      (materialize_cookie c).domain = none ∧
      processRawCookie false (reloadCookie (materialize_cookie c))
        = (c, false)) := by
  constructor
  · have hmap : ((jar.map materialize_cookie).map reloadCookie).map
        (fun c => (processRawCookie false c).1) = jar := by
      rw [List.map_map, List.map_map]
      have hcong : ∀ c ∈ jar,
          (((fun c => (processRawCookie false c).1) ∘ reloadCookie) ∘
            materialize_cookie) c = id c := by
        intro c hc
        have h := roundtrip_cookie c (hwf c hc)
        simp only [Function.comp_apply, id_eq, h]
      rw [List.map_congr_left hcong, List.map_id]
    have hflag : (decodeCookies
        (.listShaped ((jar.map materialize_cookie).map reloadCookie))
          []).2 = false := by
      rw [decodeCookies_snd]
      simp only [normalizeCookies, CookieField.isDict]
      rw [List.any_eq_false]
      intro c _
      simp [processRawCookie_flag_list]
    have hjar : (decodeCookies
        (.listShaped ((jar.map materialize_cookie).map reloadCookie))
          []).1 = jar := by
      rw [decodeCookies_fst]
      simp only [normalizeCookies, CookieField.isDict]
      rw [← List.foldl_map (fun c => (processRawCookie false c).1) jarSet]
      rw [hmap]
      exact foldl_jarSet_fresh jar [] (by simp) hnodup
    exact Prod.ext hjar hflag
  · intro c hc hex
    refine ⟨?_, roundtrip_cookie c (hwf c hc)⟩
    simp [materialize_cookie, hwf c hc hex, hex]

/-- C6 witness: a jar holding one host-bound cookie and one explicit-none
marker round-trips exactly. -/
theorem list_shape_roundtrip_witness :
    let jar : List JarCookie :=
      [{ name := "sid", value := "1", domain := "h.example", path := "/" },
       { name := "tok", value := "2", domain := "", path := "/",
         is_explicit_none := true }]
    decodeCookies
        (.listShaped ((jar.map materialize_cookie).map reloadCookie)) []
      = (jar, false) ∧
    (∀ c ∈ jar, c.is_explicit_none = true →
      (materialize_cookie c).domain = none ∧
      processRawCookie false (reloadCookie (materialize_cookie c))
        = (c, false)) :=
  list_shape_roundtrip
    [{ name := "sid", value := "1", domain := "h.example", path := "/" },
     { name := "tok", value := "2", domain := "", path := "/",
       is_explicit_none := true }]
    (by decide) (by decide)

end Httpie.Sessions
